import Mathlib

/-!
# Verification of the gotify message API core (`api/messages.go`)

Shallow embedding of the message pagination, authorization and lifecycle
code of the repository.  Go `uint` values (IDs, `since`) are embedded as
`Nat`; the validated paging limit (gin binding `min=1,max=200`) is embedded
as `Nat` as well.  The fallible repository interface `MessageDatabase` is
embedded as a record of functions returning `Except StorageError _`, with
Go `nil` pointers embedded as `Option.none`.  Handlers are pure functions
from the database record and the already-bound request data to a response
paired with the ordered trace of mutation/notification calls they issue.
-/

namespace GotifyMessages

/-- A storage failure reported by the repository (Go `error`), carrying its
message. -/
abbrev StorageError : Type := String

/-- Embedding of `model.Message` (the fields this core reads and writes):
identity, owning application identity, title, body, priority.  The creation
timestamp and extras are never inspected by this core and are omitted. -/
structure Message where
  id : Nat
  applicationID : Nat
  title : String
  message : String
  priority : Int
  deriving Repr, DecidableEq

/-- Embedding of `model.MessageExternal`, the external view of a message. -/
structure MessageExternal where
  id : Nat
  applicationID : Nat
  title : String
  message : String
  priority : Int
  deriving Repr, DecidableEq

/-- `model.Message.ToExternal`: the external view carries the same fields. -/
def Message.toExternal (m : Message) : MessageExternal :=
  { id := m.id, applicationID := m.applicationID, title := m.title,
    message := m.message, priority := m.priority }

/-- Embedding of `model.Application`: identity, owning user, display name,
authentication token. -/
structure Application where
  id : Nat
  userID : Nat
  name : String
  token : String
  deriving Repr, DecidableEq

/-- Embedding of `model.ApplicationMessage`, the bound creation request body. -/
structure ApplicationMessage where
  title : String
  message : String
  priority : Int
  deriving Repr, DecidableEq

/-- `model.ApplicationMessage.ToInternal(applicationID)`: builds the internal
message for the resolved application; the ID is assigned by the store on
creation (zero here). -/
def ApplicationMessage.toInternal (s : ApplicationMessage) (applicationID : Nat) : Message :=
  { id := 0, applicationID := applicationID, title := s.title,
    message := s.message, priority := s.priority }

/-- `model.Paging` as produced by `buildWithPaging`. -/
structure Paging where
  size : Nat
  limit : Nat
  next : String
  since : Nat
  deriving Repr, DecidableEq

/-- `model.PagedMessages`. -/
structure PagedMessages where
  paging : Paging
  messages : List MessageExternal
  deriving Repr, DecidableEq

/-- `pagingParams` after successful gin binding: `Limit` (binding
`min=1,max=200`, default 100) and `Since` (`uint`, binding `min=0`). -/
structure PagingParams where
  limit : Nat
  since : Nat
  deriving Repr, DecidableEq

/-- The per-request data `buildWithPaging` reads from the gin context: the
externally visible scheme and host (as resolved by `location.Get`, which is
proxy-aware) and the request URL's path and query parameters. -/
structure RequestContext where
  scheme : String
  host : String
  path : String
  query : List (String × String)
  deriving Repr, DecidableEq

/-- A `net/url.URL` restricted to the parts this code touches: scheme, host,
path and the query as a key/value sequence. -/
structure URL where
  scheme : String
  host : String
  path : String
  query : List (String × String)
  deriving Repr, DecidableEq

/-- Model of `location.Get(ctx)` from the external `github.com/gotify/location`
library: it returns a URL carrying only the externally visible scheme and host
of the current request (proxy headers considered); its path and query are
empty. -/
def locationGet (ctx : RequestContext) : URL :=
  { scheme := ctx.scheme, host := ctx.host, path := "", query := [] }

/-- Lexicographic order on character lists by code point, the order Go's
`sort.Strings` uses on the ASCII keys occurring here. -/
def charListLE : List Char → List Char → Bool
  | [], _ => true
  | _ :: _, [] => false
  | a :: as, b :: bs =>
    if a.toNat < b.toNat then true
    else if b.toNat < a.toNat then false
    else charListLE as bs

/-- Lexicographic order on strings by code point. -/
def strLE (a b : String) : Bool :=
  charListLE a.data b.data

/-- Stable insertion of a key/value pair into a key-sorted pair list; ties
keep the inserted pair first, so that repeated insertion from the right is
stable, matching the order `url.Values.Encode` emits (keys sorted, values of
one key in insertion order). -/
def insertPair (p : String × String) : List (String × String) → List (String × String)
  | [] => [p]
  | q :: qs => if strLE p.1 q.1 then p :: q :: qs else q :: insertPair p qs

/-- Sort a query pair list by key, stably (model of the key sorting done by
`url.Values.Encode`). -/
def sortQuery (q : List (String × String)) : List (String × String) :=
  q.foldr insertPair []

/-- Model of `url.Values.Encode` for URL-safe keys and values: key-sorted
`k=v` pairs joined by `&` (percent-escaping is the identity on the plain
ASCII names and digits used here). -/
def encodeQuery (q : List (String × String)) : String :=
  String.intercalate "&" ((sortQuery q).map (fun p => p.1 ++ "=" ++ p.2))

/-- Model of `url.URL.String()` for the URL shapes this code builds:
`scheme:` when a scheme is set, `//host` when a host is set, then the path,
then `?` and the encoded query when the query is non-empty. -/
def urlString (u : URL) : String :=
  (if u.scheme = "" then "" else u.scheme ++ ":") ++
    (if u.host = "" then "" else "//" ++ u.host) ++
    u.path ++
    (if u.query = [] then "" else "?" ++ encodeQuery u.query)

/-- `toExternalMessages`: convert each message to its external view, in
order. -/
def toExternalMessages (msg : List Message) : List MessageExternal :=
  msg.map Message.toExternal

/-- `buildWithPaging(ctx, paging, messages)`.  When more than `paging.Limit`
rows were returned, Go keeps `messages[:len(messages)-1]`, takes the cursor
from `useMessages[len(useMessages)-1].ID`, and builds the next URL from
`location.Get(ctx)` with the request path and a query to which `limit` and
`since` are added.  Go's index of the last kept row requires `useMessages` to
be non-empty, which the binding-validated `limit ≥ 1` guarantees; the
`getD 0` fallback is never exercised on that domain. -/
def buildWithPaging (ctx : RequestContext) (paging : PagingParams)
    (messages : List Message) : PagedMessages :=
  if paging.limit < messages.length then
    let useMessages := messages.dropLast
    let since := ((useMessages.getLast?).map Message.id).getD 0
    let url := locationGet ctx
    let url := { url with path := ctx.path }
    let query := url.query ++ [("limit", toString paging.limit), ("since", toString since)]
    let url := { url with query := query }
    { paging := { size := useMessages.length, limit := paging.limit,
                  next := urlString url, since := since },
      messages := toExternalMessages useMessages }
  else
    { paging := { size := messages.length, limit := paging.limit,
                  next := "", since := 0 },
      messages := toExternalMessages messages }

/-- Embedding of the `MessageDatabase` interface: each method may fail with a
`StorageError`; "not found" is a `none`/empty result, not an error. -/
structure MessageDB where
  getMessagesByApplication : Nat → Except StorageError (List Message)
  getMessagesByApplicationSince : Nat → Nat → Nat → Except StorageError (List Message)
  getApplicationByID : Nat → Except StorageError (Option Application)
  getMessagesByUser : Nat → Except StorageError (List Message)
  getMessagesByUserSince : Nat → Nat → Nat → Except StorageError (List Message)
  deleteMessageByID : Nat → Except StorageError Unit
  getMessageByID : Nat → Except StorageError (Option Message)
  deleteMessagesByUser : Nat → Except StorageError Unit
  deleteMessagesByApplication : Nat → Except StorageError Unit
  createMessage : Message → Except StorageError Unit
  getApplicationByToken : String → Except StorageError (Option Application)

/-- The event payloads handed to `Notifier.Notify`: `model.MessageDeletions`
on deletion, the created message itself on creation. -/
inductive Event where
  | deletions (messages : List Message)
  | created (message : Message)
  deriving Repr, DecidableEq

/-- One observable side-effecting call a handler issues, in program order:
a `Notifier.Notify` call or a mutating repository call. -/
inductive Action where
  | notify (userID : Nat) (event : Event)
  | deleteMessageByID (id : Nat)
  | deleteMessagesByUser (userID : Nat)
  | deleteMessagesByApplication (applicationID : Nat)
  | createMessage (message : Message)
  deriving Repr, DecidableEq

/-- The response a handler writes: a JSON body with a status code, a bare
200, a gin abort with status code and error message, or a runtime panic
(nil-pointer dereference). -/
inductive Response where
  | pagedJSON (code : Nat) (body : PagedMessages)
  | messageJSON (code : Nat) (body : MessageExternal)
  | ok
  | aborted (code : Nat) (err : String)
  | panicked (reason : String)
  deriving Repr, DecidableEq

/-- A handler run: the response written plus the ordered trace of notify and
mutation calls made. -/
abbrev HandlerRun : Type := Response × List Action

/-- `MessageAPI.GetMessages` after auth and paging-parameter binding: fetch
`limit+1` rows for the user (the lookahead row detects a further page) and
build the page. -/
def GetMessages (db : MessageDB) (userID : Nat) (params : PagingParams)
    (ctx : RequestContext) : HandlerRun :=
  match db.getMessagesByUserSince userID (params.limit + 1) params.since with
  | .error e => (.aborted 500 e, [])
  | .ok messages => (.pagedJSON 200 (buildWithPaging ctx params messages), [])

/-- `MessageAPI.GetMessagesWithApplication` after ID and paging binding:
resolve the application; only when it exists and is owned by the acting user
fetch `limit+1` rows and build the page, otherwise abort 404. -/
def GetMessagesWithApplication (db : MessageDB) (userID : Nat) (id : Nat)
    (params : PagingParams) (ctx : RequestContext) : HandlerRun :=
  match db.getApplicationByID id with
  | .error e => (.aborted 500 e, [])
  | .ok (some app) =>
    if app.userID = userID then
      match db.getMessagesByApplicationSince id (params.limit + 1) params.since with
      | .error e => (.aborted 500 e, [])
      | .ok messages => (.pagedJSON 200 (buildWithPaging ctx params messages), [])
    else (.aborted 404 "application does not exist", [])
  | .ok none => (.aborted 404 "application does not exist", [])

/-- `MessageAPI.DeleteMessages`: fetch all of the user's messages, notify
with a deletion event holding them, then delete all messages of the user. -/
def DeleteMessages (db : MessageDB) (userID : Nat) : HandlerRun :=
  match db.getMessagesByUser userID with
  | .error e => (.aborted 500 e, [])
  | .ok messages =>
    let event := Event.deletions messages
    match db.deleteMessagesByUser userID with
    | .ok _ => (.ok, [.notify userID event, .deleteMessagesByUser userID])
    | .error e => (.aborted 500 e, [.notify userID event, .deleteMessagesByUser userID])

/-- `MessageAPI.DeleteMessageWithApplication`: resolve the application and
check ownership; fetch all of its messages, notify with a deletion event
holding them, then delete all messages of the application. -/
def DeleteMessageWithApplication (db : MessageDB) (userID : Nat) (id : Nat) :
    HandlerRun :=
  match db.getApplicationByID id with
  | .error e => (.aborted 500 e, [])
  | .ok (some application) =>
    if application.userID = userID then
      match db.getMessagesByApplication id with
      | .error e => (.aborted 500 e, [])
      | .ok messages =>
        let event := Event.deletions messages
        match db.deleteMessagesByApplication id with
        | .ok _ => (.ok, [.notify userID event, .deleteMessagesByApplication id])
        | .error e => (.aborted 500 e, [.notify userID event, .deleteMessagesByApplication id])
    else (.aborted 404 "application does not exists", [])
  | .ok none => (.aborted 404 "application does not exists", [])

/-- `MessageAPI.DeleteMessage`: resolve the message, then its application;
on ownership, notify with a deletion event holding exactly that message,
then delete it by ID.  A missing message and a foreign or missing
application produce the same 404. -/
def DeleteMessage (db : MessageDB) (userID : Nat) (id : Nat) : HandlerRun :=
  match db.getMessageByID id with
  | .error e => (.aborted 500 e, [])
  | .ok none => (.aborted 404 "message does not exist", [])
  | .ok (some msg) =>
    match db.getApplicationByID msg.applicationID with
    | .error e => (.aborted 500 e, [])
    | .ok (some app) =>
      if app.userID = userID then
        let event := Event.deletions [msg]
        match db.deleteMessageByID id with
        | .ok _ => (.ok, [.notify userID event, .deleteMessageByID id])
        | .error e => (.aborted 500 e, [.notify userID event, .deleteMessageByID id])
      else (.aborted 404 "message does not exist", [])
    | .ok none => (.aborted 404 "message does not exist", [])

/-- Model of Go's `unicode.IsSpace`: the Unicode White_Space code points of
Go's `unicode.White_Space` table — U+0009–U+000D, U+0020, U+0085, U+00A0,
U+1680, U+2000–U+200A, U+2028, U+2029, U+202F, U+205F and U+3000. -/
def isSpaceGo (c : Char) : Bool :=
  let n := c.toNat
  decide ((9 ≤ n ∧ n ≤ 13) ∨ n = 32 ∨ n = 0x85 ∨ n = 0xA0 ∨ n = 0x1680 ∨
    (0x2000 ≤ n ∧ n ≤ 0x200A) ∨ n = 0x2028 ∨ n = 0x2029 ∨ n = 0x202F ∨
    n = 0x205F ∨ n = 0x3000)

/-- Model of `strings.TrimSpace`: drop leading and trailing whitespace. -/
def trimSpace (s : String) : String :=
  String.mk (((s.toList.dropWhile isSpaceGo).reverse.dropWhile isSpaceGo).reverse)

/-- The message `CreateMessage` hands to the store, lines 385–388: the bound
body converted for the resolved application, with an empty or
whitespace-only title replaced by the application's display name. -/
def processedMessage (application : Application) (appMessage : ApplicationMessage) : Message :=
  let message := appMessage.toInternal application.id
  if trimSpace message.title = "" then { message with title := application.name }
  else message

/-- `MessageAPI.CreateMessage` after a successful body bind: resolve the
application by token; Go then reads `application.ID` with no nil check, so a
token that resolves to no application (nil, no error) is a nil-pointer
dereference.  Otherwise persist the processed message and, on success only,
notify with the created message and return its external view. -/
def CreateMessage (db : MessageDB) (userID : Nat) (token : String)
    (appMessage : ApplicationMessage) : HandlerRun :=
  match db.getApplicationByToken token with
  | .error e => (.aborted 500 e, [])
  | .ok none => (.panicked "nil pointer dereference", [])
  | .ok (some application) =>
    let message := processedMessage application appMessage
    match db.createMessage message with
    | .error e => (.aborted 500 e, [.createMessage message])
    | .ok _ =>
      (.messageJSON 200 message.toExternal,
        [.createMessage message, .notify userID (.created message)])

/-- `url.Values.Set` semantics: replace every value bound to the key by the
single given value. -/
def setParam (q : List (String × String)) (k v : String) : List (String × String) :=
  (q.filter (fun p => p.1 ≠ k)) ++ [(k, v)]

/-- Modelled from the spec: the next-page URL as §6 describes it —
"constructed by copying the current request URL and overwriting its
`limit`/`since` query parameters".  Used only to compare the spec's wording
against `buildWithPaging`. -/
def specNextURL (ctx : RequestContext) (limit since : Nat) : String :=
  urlString { scheme := ctx.scheme, host := ctx.host, path := ctx.path,
              query := setParam (setParam ctx.query "limit" (toString limit))
                        "since" (toString since) }

/-- A sample message with the given ID, used in concrete runs. -/
def sampleMsg (i : Nat) : Message :=
  { id := i, applicationID := 1, title := "t", message := "b", priority := 0 }

/-- A sample request context with no query parameters. -/
def ctxPlain : RequestContext :=
  { scheme := "http", host := "example.com", path := "/message", query := [] }

/-- A sample request context whose URL carries a `token` query parameter, as
query-token authenticated requests do. -/
def ctxWithToken : RequestContext :=
  { scheme := "http", host := "example.com", path := "/message",
    query := [("token", "abc")] }

/-- A sample application owned by user 1. -/
def weatherBot : Application :=
  { id := 1, userID := 1, name := "Weather Bot", token := "apptoken" }

/-- A sample application owned by user 2, foreign to user 1. -/
def foreignApp : Application :=
  { id := 2, userID := 2, name := "Other", token := "othertoken" }

/-- A sample message belonging to the foreign application. -/
def foreignMsg : Message :=
  { id := 5, applicationID := 2, title := "ft", message := "fb", priority := 0 }

/-- A repository holding nothing: every lookup misses, every mutation
succeeds. -/
def dbEmpty : MessageDB where
  getMessagesByApplication _ := .ok []
  getMessagesByApplicationSince _ _ _ := .ok []
  getApplicationByID _ := .ok none
  getMessagesByUser _ := .ok []
  getMessagesByUserSince _ _ _ := .ok []
  deleteMessageByID _ := .ok ()
  getMessageByID _ := .ok none
  deleteMessagesByUser _ := .ok ()
  deleteMessagesByApplication _ := .ok ()
  createMessage _ := .ok ()
  getApplicationByToken _ := .ok none

/-- A repository that resolves every token to the sample application and
accepts every creation. -/
def dbCreateOk : MessageDB :=
  { dbEmpty with getApplicationByToken := fun _ => .ok (some weatherBot) }

/-- A repository that resolves every token to the sample application but
fails every creation with a storage error. -/
def dbCreateFail : MessageDB :=
  { dbEmpty with
    getApplicationByToken := fun _ => .ok (some weatherBot),
    createMessage := fun _ => .error "disk full" }

/-- A repository whose message-fetching calls all fail with a storage error,
while the sample application resolves for the acting user. -/
def dbFetchFail : MessageDB :=
  { dbEmpty with
    getMessagesByUser := fun _ => .error "io failure",
    getMessagesByApplication := fun _ => .error "io failure",
    getMessageByID := fun _ => .error "io failure",
    getApplicationByID := fun _ => .ok (some weatherBot) }

/-- A repository in which the requested application and message exist but
belong to user 2. -/
def dbForeign : MessageDB :=
  { dbEmpty with
    getApplicationByID := fun _ => .ok (some foreignApp),
    getMessageByID := fun _ => .ok (some foreignMsg) }

/-- A URL whose query is non-empty prints to a non-empty string (the `?` and
the encoded query are always appended). -/
theorem urlString_ne_empty (u : URL) (h : u.query ≠ []) : urlString u ≠ "" := by
  intro hc
  have hlen : (urlString u).length = 0 := by rw [hc]; rfl
  rw [urlString, if_neg h] at hlen
  simp only [String.length_append] at hlen
  have h1 : ("?" : String).length = 1 := rfl
  omega

/-- Every message on a built page is the external view of a message of the
input list. -/
theorem mem_buildWithPaging_messages (ctx : RequestContext) (p : PagingParams)
    (msgs : List Message) (m : MessageExternal)
    (hm : m ∈ (buildWithPaging ctx p msgs).messages) :
    ∃ n ∈ msgs, m = n.toExternal := by
  rw [buildWithPaging] at hm
  split at hm <;> simp only [toExternalMessages, List.mem_map] at hm <;>
    obtain ⟨n, hn, rfl⟩ := hm
  · exact ⟨n, (List.dropLast_sublist msgs).subset hn, rfl⟩
  · exact ⟨n, hn, rfl⟩

/-- In a list pairwise-descending on IDs, the last element's ID is a lower
bound for every element's ID. -/
theorem getLast_id_le_of_pairwise (l : List Message)
    (hs : l.Pairwise (fun a b => b.id ≤ a.id)) (hne : l ≠ []) :
    ∀ m ∈ l, (l.getLast hne).id ≤ m.id := by
  induction l with
  | nil => exact absurd rfl hne
  | cons x xs ih =>
    intro m hm
    cases xs with
    | nil =>
      simp only [List.mem_singleton] at hm
      subst hm
      exact le_refl _
    | cons y ys =>
      have hpw := List.pairwise_cons.mp hs
      have hne2 : y :: ys ≠ [] := by simp
      rw [List.getLast_cons hne2]
      rcases List.mem_cons.mp hm with h1 | h2
      · subst h1
        exact hpw.1 _ (List.getLast_mem hne2)
      · exact ih hpw.2 hne2 m h2

/-- `trimSpace` erases a string exactly when every character is whitespace
(in particular when the string is empty). -/
theorem trimSpace_eq_empty_iff (s : String) :
    trimSpace s = "" ↔ s.toList.all isSpaceGo := by
  rw [trimSpace]
  have hmk : ∀ l : List Char, String.mk l = "" ↔ l = [] := by
    intro l
    constructor
    · intro h
      exact congrArg String.data h
    · intro h
      rw [h]
  rw [hmk, List.reverse_eq_nil_iff, List.dropWhile_eq_nil_iff, List.all_eq_true]
  constructor
  · intro h x hx
    have hx2 : x ∈ s.toList.dropWhile isSpaceGo ∨ x ∈ s.toList.takeWhile isSpaceGo := by
      rcases List.mem_append.mp (by
        rw [List.takeWhile_append_dropWhile]
        exact hx : x ∈ s.toList.takeWhile isSpaceGo ++ s.toList.dropWhile isSpaceGo) with h1 | h2
      · exact Or.inr h1
      · exact Or.inl h2
    rcases hx2 with h1 | h2
    · exact h x (List.mem_reverse.mpr h1)
    · exact List.mem_takeWhile_imp h2
  · intro h x hx
    exact h x ((List.dropWhile_sublist _).subset (List.mem_reverse.mp hx))

/-- C10: for every request context, paging parameters (with the
binding-validated lower bound on the limit) and input list, the page's
`Size` equals the number of returned messages, and the returned messages are
exactly the kept input rows (all rows, or all but the lookahead row when the
list overflows the limit) converted to their external views in order. -/
theorem buildWithPaging_size_eq_length (ctx : RequestContext) (p : PagingParams)
    (msgs : List Message) (_hl : 1 ≤ p.limit) :
    (buildWithPaging ctx p msgs).paging.size =
      (buildWithPaging ctx p msgs).messages.length ∧
    (buildWithPaging ctx p msgs).messages =
      toExternalMessages (if p.limit < msgs.length then msgs.dropLast else msgs) := by
  rw [buildWithPaging]
  split
  · simp [toExternalMessages]
  · simp [toExternalMessages]

/-- C10 witness: at limit 2 on four rows, size 3 equals the length of the
three kept rows' external views. -/
theorem buildWithPaging_size_eq_length_witness :
    (buildWithPaging ctxPlain ⟨2, 0⟩ [sampleMsg 10, sampleMsg 9, sampleMsg 8, sampleMsg 7]).paging.size =
      (buildWithPaging ctxPlain ⟨2, 0⟩ [sampleMsg 10, sampleMsg 9, sampleMsg 8, sampleMsg 7]).messages.length ∧
    (buildWithPaging ctxPlain ⟨2, 0⟩ [sampleMsg 10, sampleMsg 9, sampleMsg 8, sampleMsg 7]).messages =
      toExternalMessages (if 2 < ([sampleMsg 10, sampleMsg 9, sampleMsg 8, sampleMsg 7] : List Message).length
        then ([sampleMsg 10, sampleMsg 9, sampleMsg 8, sampleMsg 7] : List Message).dropLast
        else [sampleMsg 10, sampleMsg 9, sampleMsg 8, sampleMsg 7]) :=
  buildWithPaging_size_eq_length ctxPlain ⟨2, 0⟩
    [sampleMsg 10, sampleMsg 9, sampleMsg 8, sampleMsg 7] (by decide)

/-- C1 counterexample: `buildWithPaging` truncates only the single lookahead
row (`messages[:len(messages)-1]`), so for a limit of 1 (within [1,200]) and
an input list of three messages the returned page holds two messages — more
than the limit.  The claim's bound fails for input lists longer than
`limit + 1`. -/
theorem buildWithPaging_over_limit_cex :
    1 ≤ 1 ∧ 1 ≤ 200 ∧
      ¬ ((buildWithPaging ctxPlain ⟨1, 0⟩
            [sampleMsg 10, sampleMsg 9, sampleMsg 8]).messages.length ≤ 1) := by
  decide

/-- C1 (amended): for every limit in [1,200] and every input list of at most
`limit + 1` messages — which the callers guarantee by requesting `limit + 1`
rows from the repository — the returned page contains at most `limit`
messages, and the result carries a non-empty next cursor if and only if the
input list contains more than `limit` messages. -/
theorem buildWithPaging_page_bound (ctx : RequestContext) (p : PagingParams)
    (msgs : List Message) (h1 : 1 ≤ p.limit) (h2 : p.limit ≤ 200)
    (h3 : msgs.length ≤ p.limit + 1) :
    (buildWithPaging ctx p msgs).messages.length ≤ p.limit ∧
    ((buildWithPaging ctx p msgs).paging.next ≠ "" ↔ p.limit < msgs.length) := by
  rw [buildWithPaging]
  split
  · case isTrue h =>
    constructor
    · simp only [toExternalMessages, List.length_map, List.length_dropLast]
      omega
    · simp only []
      constructor
      · intro _
        exact h
      · intro _
        apply urlString_ne_empty
        simp [locationGet]
  · case isFalse h =>
    constructor
    · simp only [toExternalMessages, List.length_map]
      omega
    · simp only [ne_eq, not_true_eq_false, false_iff]
      exact h

/-- C1 witness: limit 2 on a three-row fetch result keeps two messages and a
non-empty cursor. -/
theorem buildWithPaging_page_bound_witness :
    (buildWithPaging ctxPlain ⟨2, 0⟩
        [sampleMsg 10, sampleMsg 9, sampleMsg 8]).messages.length ≤ 2 ∧
    ((buildWithPaging ctxPlain ⟨2, 0⟩
        [sampleMsg 10, sampleMsg 9, sampleMsg 8]).paging.next ≠ "" ↔
      2 < ([sampleMsg 10, sampleMsg 9, sampleMsg 8] : List Message).length) :=
  buildWithPaging_page_bound ctxPlain ⟨2, 0⟩ [sampleMsg 10, sampleMsg 9, sampleMsg 8]
    (by decide) (by decide) (by decide)

/-- C7 counterexample: for a full page on a request whose URL carries a
`token` query parameter, the next URL built by `buildWithPaging` (from
`location.Get`, whose query is empty) differs from the URL obtained by
copying the current request URL and overwriting its `limit`/`since`
parameters: the code produces `?limit=2&since=9`, dropping `token=abc`. -/
theorem buildWithPaging_next_url_cex :
    (buildWithPaging ctxWithToken ⟨2, 0⟩
        [sampleMsg 10, sampleMsg 9, sampleMsg 8]).paging.next ≠
      specNextURL ctxWithToken 2
        (buildWithPaging ctxWithToken ⟨2, 0⟩
          [sampleMsg 10, sampleMsg 9, sampleMsg 8]).paging.since := by
  decide

/-- C7 (amended): for every full page, the next URL is built from the
current request's scheme, host and path with a fresh query holding exactly
the current limit and the computed cursor as `since`; query parameters of
the incoming request are not copied over. -/
theorem buildWithPaging_next_url (ctx : RequestContext) (p : PagingParams)
    (msgs : List Message) (h : p.limit < msgs.length) :
    (buildWithPaging ctx p msgs).paging.next =
      urlString { scheme := ctx.scheme, host := ctx.host, path := ctx.path,
                  query := [("limit", toString p.limit),
                            ("since", toString (buildWithPaging ctx p msgs).paging.since)] } := by
  rw [buildWithPaging]
  simp only [if_pos h, locationGet, List.nil_append]

/-- C7 amended-claim witness: the full-page next URL at limit 2 over three
rows on the token-carrying request context. -/
theorem buildWithPaging_next_url_witness :
    (buildWithPaging ctxWithToken ⟨2, 0⟩
        [sampleMsg 10, sampleMsg 9, sampleMsg 8]).paging.next =
      urlString { scheme := ctxWithToken.scheme, host := ctxWithToken.host,
                  path := ctxWithToken.path,
                  query := [("limit", toString (2 : Nat)),
                            ("since", toString (buildWithPaging ctxWithToken ⟨2, 0⟩
                              [sampleMsg 10, sampleMsg 9, sampleMsg 8]).paging.since)] } :=
  buildWithPaging_next_url ctxWithToken ⟨2, 0⟩ [sampleMsg 10, sampleMsg 9, sampleMsg 8]
    (by decide)

/-- C2: with the repository contract as hypotheses — the first fetch is
descending in IDs and overflows the limit, and the second fetch (at `since`
equal to the first page's cursor) only returns IDs below the cursor — the
second page built from it contains no message with ID at or above the
cursor, and no message that appeared on the first page. -/
theorem paging_next_cursor_no_overlap (ctx1 ctx2 : RequestContext) (l : Nat)
    (L1 L2 : List Message) (h1 : 1 ≤ l) (h2 : l ≤ 200)
    (hsorted : L1.Pairwise (fun a b => b.id ≤ a.id))
    (hfull : l < L1.length)
    (hcontract : ∀ m ∈ L2,
      m.id < (buildWithPaging ctx1 ⟨l, 0⟩ L1).paging.since) :
    ∀ m2 ∈ (buildWithPaging ctx2
        ⟨l, (buildWithPaging ctx1 ⟨l, 0⟩ L1).paging.since⟩ L2).messages,
      m2.id < (buildWithPaging ctx1 ⟨l, 0⟩ L1).paging.since ∧
      ∀ m1 ∈ (buildWithPaging ctx1 ⟨l, 0⟩ L1).messages, m1.id ≠ m2.id := by
  have hne : L1.dropLast ≠ [] := by
    have hld := List.length_dropLast L1
    intro hc
    rw [hc] at hld
    simp only [List.length_nil] at hld
    omega
  have hsince : (buildWithPaging ctx1 ⟨l, 0⟩ L1).paging.since =
      (L1.dropLast.getLast hne).id := by
    rw [buildWithPaging]
    dsimp only
    rw [if_pos hfull, List.getLast?_eq_getLast _ hne]
    rfl
  have hpage1 : (buildWithPaging ctx1 ⟨l, 0⟩ L1).messages =
      toExternalMessages L1.dropLast := by
    rw [buildWithPaging]
    dsimp only
    rw [if_pos hfull]
  have hkey : ∀ m ∈ L1.dropLast, (L1.dropLast.getLast hne).id ≤ m.id :=
    getLast_id_le_of_pairwise L1.dropLast
      (hsorted.sublist (List.dropLast_sublist L1)) hne
  intro m2 hm2
  obtain ⟨n2, hn2, rfl⟩ := mem_buildWithPaging_messages ctx2 _ L2 m2 hm2
  refine ⟨hcontract n2 hn2, ?_⟩
  intro m1 hm1
  rw [hpage1] at hm1
  obtain ⟨n1, hn1, rfl⟩ := List.mem_map.mp hm1
  have hge : (buildWithPaging ctx1 ⟨l, 0⟩ L1).paging.since ≤ n1.id := by
    rw [hsince]
    exact hkey n1 hn1
  have hlt : n2.id < (buildWithPaging ctx1 ⟨l, 0⟩ L1).paging.since :=
    hcontract n2 hn2
  intro heq
  have hid : n1.id = n2.id := heq
  omega

/-- C2 witness: the spec's worked store — limit 2 over fetch results
[10,9,8] then [8,7] with the cursor 9 — yields a second page below the
cursor and disjoint from the first. -/
theorem paging_next_cursor_no_overlap_witness :
    ([sampleMsg 10, sampleMsg 9, sampleMsg 8] : List Message).Pairwise
        (fun a b => b.id ≤ a.id) ∧
    ∀ m2 ∈ (buildWithPaging ctxPlain
        ⟨2, (buildWithPaging ctxPlain ⟨2, 0⟩
          [sampleMsg 10, sampleMsg 9, sampleMsg 8]).paging.since⟩
        [sampleMsg 8, sampleMsg 7]).messages,
      m2.id < (buildWithPaging ctxPlain ⟨2, 0⟩
        [sampleMsg 10, sampleMsg 9, sampleMsg 8]).paging.since ∧
      ∀ m1 ∈ (buildWithPaging ctxPlain ⟨2, 0⟩
          [sampleMsg 10, sampleMsg 9, sampleMsg 8]).messages, m1.id ≠ m2.id :=
  ⟨by decide,
    paging_next_cursor_no_overlap ctxPlain ctxPlain 2
      [sampleMsg 10, sampleMsg 9, sampleMsg 8] [sampleMsg 8, sampleMsg 7]
      (by decide) (by decide) (by decide) (by decide) (by decide)⟩

/-- C3: a request for a resource that exists but belongs to a different user
and a request for a resource that does not exist produce identical runs —
the same not-found response and no side effects — for both the
application-scoped message listing and the single-message delete. -/
theorem auth_not_found_indistinguishable (db1 db2 : MessageDB)
    (u1 u2 aid1 aid2 mid1 mid2 : Nat) (p1 p2 : PagingParams)
    (c1 c2 : RequestContext) :
    (∀ app, db1.getApplicationByID aid1 = .ok (some app) → app.userID ≠ u1 →
      db2.getApplicationByID aid2 = .ok none →
      GetMessagesWithApplication db1 u1 aid1 p1 c1 =
        GetMessagesWithApplication db2 u2 aid2 p2 c2) ∧
    (∀ msg app, db1.getMessageByID mid1 = .ok (some msg) →
      db1.getApplicationByID msg.applicationID = .ok (some app) →
      app.userID ≠ u1 →
      db2.getMessageByID mid2 = .ok none →
      DeleteMessage db1 u1 mid1 = DeleteMessage db2 u2 mid2) := by
  constructor
  · intro app ha hu hb
    simp only [GetMessagesWithApplication]
    rw [ha, hb]
    simp [hu]
  · intro msg app hm ha hu hb
    simp only [DeleteMessage]
    rw [hm, hb]
    simp [ha, hu]

/-- C3 witness: user 1 requesting user 2's application (and message) gets
exactly the runs user 1 gets for a nonexistent application (and message). -/
theorem auth_not_found_indistinguishable_witness :
    GetMessagesWithApplication dbForeign 1 2 ⟨100, 0⟩ ctxPlain =
      GetMessagesWithApplication dbEmpty 1 7 ⟨100, 0⟩ ctxPlain ∧
    DeleteMessage dbForeign 1 5 = DeleteMessage dbEmpty 1 7 :=
  ⟨(auth_not_found_indistinguishable dbForeign dbEmpty 1 1 2 7 5 7
      ⟨100, 0⟩ ⟨100, 0⟩ ctxPlain ctxPlain).1 foreignApp rfl (by decide) rfl,
   (auth_not_found_indistinguishable dbForeign dbEmpty 1 1 2 7 5 7
      ⟨100, 0⟩ ⟨100, 0⟩ ctxPlain ctxPlain).2 foreignMsg foreignApp rfl rfl
      (by decide) rfl⟩

/-- C4: in every run of the three delete handlers, either no mutation or
notification happens at all, or the trace is exactly a notification to the
acting user carrying the messages fetched for the target scope, followed by
the repository delete call — so a notification with exactly the fetched set
strictly precedes any delete. -/
theorem delete_notify_precedes_delete (db : MessageDB) (u aid mid : Nat) :
    ((DeleteMessages db u).2 = [] ∨
      ∃ msgs, db.getMessagesByUser u = .ok msgs ∧
        (DeleteMessages db u).2 =
          [.notify u (.deletions msgs), .deleteMessagesByUser u]) ∧
    ((DeleteMessageWithApplication db u aid).2 = [] ∨
      ∃ msgs, db.getMessagesByApplication aid = .ok msgs ∧
        (DeleteMessageWithApplication db u aid).2 =
          [.notify u (.deletions msgs), .deleteMessagesByApplication aid]) ∧
    ((DeleteMessage db u mid).2 = [] ∨
      ∃ msg, db.getMessageByID mid = .ok (some msg) ∧
        (DeleteMessage db u mid).2 =
          [.notify u (.deletions [msg]), .deleteMessageByID mid]) := by
  refine ⟨?_, ?_, ?_⟩
  · cases hu : db.getMessagesByUser u with
    | error e => left; simp [DeleteMessages, hu]
    | ok msgs =>
      right
      refine ⟨msgs, rfl, ?_⟩
      cases hd : db.deleteMessagesByUser u with
      | error e => simp [DeleteMessages, hu, hd]
      | ok _ => simp [DeleteMessages, hu, hd]
  · cases ha : db.getApplicationByID aid with
    | error e => left; simp [DeleteMessageWithApplication, ha]
    | ok appOpt =>
      cases appOpt with
      | none => left; simp [DeleteMessageWithApplication, ha]
      | some app =>
        by_cases howner : app.userID = u
        · cases hf : db.getMessagesByApplication aid with
          | error e => left; simp [DeleteMessageWithApplication, ha, howner, hf]
          | ok msgs =>
            right
            refine ⟨msgs, rfl, ?_⟩
            cases hd : db.deleteMessagesByApplication aid with
            | error e => simp [DeleteMessageWithApplication, ha, howner, hf, hd]
            | ok _ => simp [DeleteMessageWithApplication, ha, howner, hf, hd]
        · left; simp [DeleteMessageWithApplication, ha, howner]
  · cases hm : db.getMessageByID mid with
    | error e => left; simp [DeleteMessage, hm]
    | ok msgOpt =>
      cases msgOpt with
      | none => left; simp [DeleteMessage, hm]
      | some msg =>
        cases ha : db.getApplicationByID msg.applicationID with
        | error e => left; simp [DeleteMessage, hm, ha]
        | ok appOpt =>
          cases appOpt with
          | none => left; simp [DeleteMessage, hm, ha]
          | some app =>
            by_cases howner : app.userID = u
            · right
              refine ⟨msg, rfl, ?_⟩
              cases hd : db.deleteMessageByID mid with
              | error e => simp [DeleteMessage, hm, ha, howner, hd]
              | ok _ => simp [DeleteMessage, hm, ha, howner, hd]
            · left; simp [DeleteMessage, hm, ha, howner]

/-- C5: when persisting the created message fails with a storage error, the
run aborts with 500 and the trace holds only the failed create call — no
notification is sent. -/
theorem create_no_notify_on_persist_failure (db : MessageDB) (u : Nat)
    (token : String) (am : ApplicationMessage) (app : Application)
    (e : StorageError)
    (h1 : db.getApplicationByToken token = .ok (some app))
    (h2 : db.createMessage (processedMessage app am) = .error e) :
    CreateMessage db u token am =
      (.aborted 500 e, [.createMessage (processedMessage app am)]) := by
  simp only [CreateMessage]
  rw [h1]
  simp [h2]

/-- C5 witness: a create on a repository whose persist call fails aborts
with the storage error and never notifies. -/
theorem create_no_notify_on_persist_failure_witness :
    CreateMessage dbCreateFail 1 "apptoken" ⟨"Storm", "body", 0⟩ =
      (.aborted 500 "disk full",
        [.createMessage (processedMessage weatherBot ⟨"Storm", "body", 0⟩)]) :=
  create_no_notify_on_persist_failure dbCreateFail 1 "apptoken"
    ⟨"Storm", "body", 0⟩ weatherBot "disk full" rfl rfl

/-- C6: when the repository call fetching the messages to delete fails, each
delete handler aborts with 500 and issues neither a notification nor a
delete (empty trace). -/
theorem delete_fetch_failure_aborts (db : MessageDB) (u aid mid : Nat)
    (app : Application) (e1 e2 e3 : StorageError) :
    (db.getMessagesByUser u = .error e1 →
      DeleteMessages db u = (.aborted 500 e1, [])) ∧
    (db.getApplicationByID aid = .ok (some app) → app.userID = u →
      db.getMessagesByApplication aid = .error e2 →
      DeleteMessageWithApplication db u aid = (.aborted 500 e2, [])) ∧
    (db.getMessageByID mid = .error e3 →
      DeleteMessage db u mid = (.aborted 500 e3, [])) := by
  refine ⟨?_, ?_, ?_⟩
  · intro h
    simp [DeleteMessages, h]
  · intro ha howner hf
    simp [DeleteMessageWithApplication, ha, howner, hf]
  · intro h
    simp [DeleteMessage, h]

/-- C6 witness: on a repository whose fetches fail, all three delete
handlers abort with the storage error and an empty trace. -/
theorem delete_fetch_failure_aborts_witness :
    DeleteMessages dbFetchFail 1 = (.aborted 500 "io failure", []) ∧
    DeleteMessageWithApplication dbFetchFail 1 1 =
      (.aborted 500 "io failure", []) ∧
    DeleteMessage dbFetchFail 1 5 = (.aborted 500 "io failure", []) :=
  ⟨(delete_fetch_failure_aborts dbFetchFail 1 1 5 weatherBot
      "io failure" "io failure" "io failure").1 rfl,
   (delete_fetch_failure_aborts dbFetchFail 1 1 5 weatherBot
      "io failure" "io failure" "io failure").2.1 rfl rfl rfl,
   (delete_fetch_failure_aborts dbFetchFail 1 1 5 weatherBot
      "io failure" "io failure" "io failure").2.2 rfl⟩

/-- C8: on a creation request whose token resolves to no application (the
repository returns nil with no error), the handler dereferences the nil
application pointer: the run panics, with no persist and no notification —
it does not produce the unauthorized failure the claim describes. -/
theorem create_nil_application_panics :
    CreateMessage dbEmpty 1 "badtoken" ⟨"Storm", "body", 0⟩ =
      (.panicked "nil pointer dereference", []) := rfl

/-- C9: on every successful creation — token resolved, persist succeeded —
the run persists and then notifies with one message, whose title is the
application's display name when the supplied title is empty or all
whitespace, and the supplied title unchanged otherwise. -/
theorem create_title_defaulting (db : MessageDB) (u : Nat) (token : String)
    (am : ApplicationMessage) (app : Application)
    (h1 : db.getApplicationByToken token = .ok (some app))
    (h2 : db.createMessage (processedMessage app am) = .ok ()) :
    CreateMessage db u token am =
      (.messageJSON 200 (processedMessage app am).toExternal,
        [.createMessage (processedMessage app am),
         .notify u (.created (processedMessage app am))]) ∧
    (processedMessage app am).title =
      (if am.title.toList.all isSpaceGo = true then app.name else am.title) := by
  constructor
  · simp only [CreateMessage]
    rw [h1]
    simp [h2]
  · rw [processedMessage]
    dsimp only [ApplicationMessage.toInternal]
    by_cases hws : am.title.toList.all isSpaceGo = true
    · rw [if_pos ((trimSpace_eq_empty_iff am.title).mpr hws), if_pos hws]
    · rw [if_neg (fun hc => hws ((trimSpace_eq_empty_iff am.title).mp hc)),
        if_neg hws]

/-- C9 witness: with the application named "Weather Bot", a whitespace-only
title is stored as "Weather Bot" and the title "Storm" is stored
unchanged. -/
theorem create_title_defaulting_witness :
    (processedMessage weatherBot ⟨"  ", "body", 0⟩).title = "Weather Bot" ∧
    (processedMessage weatherBot ⟨"Storm", "body", 0⟩).title = "Storm" :=
  ⟨by
    have h := (create_title_defaulting dbCreateOk 1 "apptoken"
      ⟨"  ", "body", 0⟩ weatherBot rfl rfl).2
    rw [h]
    decide,
   by
    have h := (create_title_defaulting dbCreateOk 1 "apptoken"
      ⟨"Storm", "body", 0⟩ weatherBot rfl rfl).2
    rw [h]
    decide⟩

end GotifyMessages
